import Mathlib

/-!
Verification development for the MomentumAI RAG engine
(`backend/med_bot3/rag_pipeline.py` and `backend/med_bot3/multi_hop_rag_pipeline.py`).

The Python code is shallowly embedded: text handled character-by-character is
modelled as `List Char`, Python strings that are only passed around as `String`,
float vectors as `List ℝ`, fallible external calls (the generative model, the
default-notebook lookup) as explicit `Except` values, and the token counter
(`tiktoken` cl100k_base) as an abstract function parameter `tc`.
-/

/-- Python whitespace, as removed by `str.strip()`. -/
def isPyWs (c : Char) : Bool :=
  c = ' ' || c = '\t' || c = '\n' || c = '\r' || c = '\x0b' || c = '\x0c'

/-- Python `str.strip()` on a character list. -/
def trimL (s : List Char) : List Char :=
  ((s.dropWhile isPyWs).reverse.dropWhile isPyWs).reverse

/-- Worker for `re.split` on an alternation of literal markers (leftmost match,
alternatives tried in order), also covering Python `str.split(sep)` for a single
separator.  `acc` holds the current field, reversed.  The fuel argument only
makes the recursion structural: every step consumes at least one input
character, so any fuel above the input length never runs out. -/
def splitFuel (ms : List (List Char)) : Nat → List Char → List Char → List (List Char)
  | _, [], acc => [acc.reverse]
  | 0, _ :: _, acc => [acc.reverse]
  | n + 1, c :: rest, acc =>
    match ms.find? (fun m => m.isPrefixOf (c :: rest)) with
    | some m => acc.reverse :: splitFuel ms n (rest.drop (m.length - 1)) []
    | none => splitFuel ms n rest (c :: acc)

/-- `re.split` / `str.split` on a character list. -/
def splitGo (ms : List (List Char)) (s : List Char) (acc : List Char) :
    List (List Char) :=
  splitFuel ms (s.length + 1) s acc

/-- `text.replace('\n', ' ')` from `ingest_txt`. -/
def newlineToSpace (s : List Char) : List Char :=
  s.map (fun c => if c = '\n' then ' ' else c)

/-- A produced chunk: its text (`buffer.strip()`) and its recorded token count
(`_token_count(buffer)` measured on the unstripped buffer at cut time). -/
structure ChunkM where
  text : List Char
  tokens : Nat
deriving DecidableEq, Repr

/-- The `'. '` separator `ingest_txt` splits on and re-appends. -/
def sepDotSpace : List Char := ['.', ' ']

/-- The sentence loop of `RAGPipeline.ingest_txt` (lines 457-482): append
`sentence + '. '` to the buffer, cut a chunk when `tc buffer >= maxTok`,
and flush a trailing non-empty buffer after the loop. -/
def ingestLoop (tc : List Char → Nat) (maxTok : Nat) :
    List (List Char) → List Char → List ChunkM
  | [], buffer =>
    if buffer ≠ [] then [⟨trimL buffer, tc buffer⟩] else []
  | s :: rest, buffer =>
    if tc (buffer ++ s ++ sepDotSpace) ≥ maxTok then
      ⟨trimL (buffer ++ s ++ sepDotSpace), tc (buffer ++ s ++ sepDotSpace)⟩ ::
        ingestLoop tc maxTok rest []
    else
      ingestLoop tc maxTok rest (buffer ++ s ++ sepDotSpace)

/-- `RAGPipeline.ingest_txt`: the chunks produced for a text. -/
def ingest_txt_chunks (tc : List Char → Nat) (maxTok : Nat) (text : List Char) :
    List ChunkM :=
  ingestLoop tc maxTok (splitGo [sepDotSpace] (newlineToSpace text) []) []

/-- The text path of `RAGPipeline.ingest_pdf` (lines 626-644): per page, strip the
page text, skip empty pages, cut a chunk when the token bound is reached or the
last page is processed, guarded by `if buffer.strip()`. -/
def ingestPdfLoop (tc : List Char → Nat) (maxTok : Nat) :
    List (List Char) → List Char → List ChunkM
  | [], _ => []
  | p :: rest, buffer =>
    if trimL p ≠ [] then
      if tc (buffer ++ trimL p ++ ['\n']) ≥ maxTok ∨ rest = [] then
        (if trimL (buffer ++ trimL p ++ ['\n']) ≠ [] then
          [⟨trimL (buffer ++ trimL p ++ ['\n']), tc (buffer ++ trimL p ++ ['\n'])⟩]
        else []) ++ ingestPdfLoop tc maxTok rest []
      else
        ingestPdfLoop tc maxTok rest (buffer ++ trimL p ++ ['\n'])
    else
      ingestPdfLoop tc maxTok rest buffer

/-- `RAGPipeline.ingest_pdf`, text chunks only, from the extracted page texts. -/
def ingest_pdf_chunks (tc : List Char → Nat) (maxTok : Nat)
    (pages : List (List Char)) : List ChunkM :=
  ingestPdfLoop tc maxTok pages []

/-- `p` holds for every element of the list except possibly the last one. -/
def AllButLast {α : Type} (p : α → Prop) : List α → Prop
  | [] => True
  | [_] => True
  | a :: b :: t => p a ∧ AllButLast p (b :: t)

/-- ASCII lower-casing, modelling the `re.I` flag on the detection regex. -/
def toLowerL (s : List Char) : List Char := s.map Char.toLower

/-- The fifteen connective markers of the `is_multihop_question` regex
(`multi_hop_rag_pipeline.py` line 181). -/
def multihopMarkers : List String :=
  [" and ", " then ", " as well as ", " in addition to ", ", ", "; ",
   " after ", " before ", " because ", " so that ",
   " affect ", " relationship ", " both ", " compare ", " contrast "]

/-- The ten split markers of `heuristic_decompose_question` (line 189). -/
def decomposeSplitters : List String :=
  [" and ", " then ", " as well as ", " in addition to ", ", ", "; ",
   " after ", " before ", " because ", " so that "]

/-- The interrogative words of the comma heuristic (line 183). -/
def interrogativeWords : List String := ["how", "what", "why", "when"]

/-- Python substring test `needle in haystack`, on character lists. -/
def isSubL (needle : List Char) : List Char → Bool
  | [] => needle.isPrefixOf []
  | c :: rest => needle.isPrefixOf (c :: rest) || isSubL needle rest

def qmarkChar : Char := '?'

def commaChar : Char := ','

/-- `MultiHopRAGPipeline.is_multihop_question` (lines 177-185). -/
def is_multihop_question (q : String) : Bool :=
  if q.data.count qmarkChar > 1 then true
  else if multihopMarkers.any
      (fun m => isSubL (toLowerL m.data) (toLowerL q.data)) then true
  else if q.data.contains commaChar &&
      interrogativeWords.any (fun w => isSubL w.data q.data) then true
  else false

/-- `MultiHopRAGPipeline.heuristic_decompose_question` (lines 187-191):
case-sensitive `re.split` on the splitters, strip each field, drop empties. -/
def heuristic_decompose_question (q : String) : List String :=
  (((splitGo (decomposeSplitters.map String.data) q.data []).map
      (fun p => trimL p)).filter (fun p => p ≠ [])).map (fun p => String.mk p)

/-- The synthesis prompt of `MultiHopRAGPipeline.synthesize_answer` (213-217). -/
def synthPrompt (q : String) (subAnswers : List String) : String :=
  "Original question: " ++ q ++ "\n" ++ "Sub-answers:\n" ++
    String.intercalate ("\n") (subAnswers.map (fun a => "- " ++ a)) ++
    "\n\nCombine these into a single, clear, and complete answer."

/-- Fallback text of `synthesize_answer` for an empty sub-answer list. -/
def synthFallback : String := "I couldn\x27t generate a complete answer."

/-- `MultiHopRAGPipeline.synthesize_answer` (lines 210-223): call the generative
model; on failure return the first sub-answer (or the fallback text). -/
def synthesize_answer (gen : String → Except String String) (q : String)
    (subAnswers : List String) : String :=
  match gen (synthPrompt q subAnswers) with
  | .ok t => t.trim
  | .error _ =>
    match subAnswers with
    | a :: _ => a
    | [] => synthFallback

/-- Metadata maps are modelled as association lists. -/
abbrev MetaM := List (String × String)

/-- A retrieval result entry `(content, metadata, id)`. -/
abbrev RetrievedChunk := String × MetaM × String

def noMaterialAnswer : String := "I couldn\x27t find relevant material."

def genErrorAnswer : String :=
  "I apologize, but I encountered an error while generating the answer."

/-- The answer prompt of `RAGPipeline.query` (lines 692-700). -/
def answerPrompt (contextText question : String) : String :=
  "\nBased on the following context, please answer the question. " ++
    "If the context doesn\x27t contain enough information to answer the question, say so." ++
    "\n\nContext:\n" ++ contextText ++ "\n\nQuestion: " ++ question ++ "\n\nAnswer:"

/-- The answer-assembly tail of `RAGPipeline.query` (lines 661-710): `retrieved`
is the outcome of the retrieval paths (`.error` models a raised exception).
An empty or failed retrieval returns the fixed no-material answer; otherwise the
context is concatenated with blank lines and the generative model is called,
its own failure degrading to a fixed apology string. -/
def queryModel (gen : String → Except String String) (question : String)
    (retrieved : Except Unit (List RetrievedChunk)) : String × List RetrievedChunk :=
  match retrieved with
  | .error _ => (noMaterialAnswer, [])
  | .ok [] => (noMaterialAnswer, [])
  | .ok ctx =>
    match gen (answerPrompt (String.intercalate ("\n\n") (ctx.map (fun c => c.1))) question) with
    | .ok a => (a, ctx)
    | .error _ => (genErrorAnswer, ctx)

/-- The hard-coded test user UUID of `_get_user_id` (line 243). -/
def testUserId : String := "c04c5c6a-367b-4322-8913-856d13a2da75"

/-- `_get_user_id` (lines 239-244). -/
def _get_user_id : Option String → String
  | none => testUserId
  | some u => u

/-- `_get_notebook_id` (lines 231-237): `"default"` becomes NULL. -/
def _get_notebook_id (nb : String) : Option String :=
  if nb = "default" then none else some nb

/-- The `eps` default of `_l2_normalize` (line 140). -/
noncomputable def epsNorm : ℝ := 1 / 10 ^ 12

/-- The near-zero-norm guard of `find_relevent_chunks` (lines 859, 948). -/
noncomputable def epsSkip : ℝ := 1 / 10 ^ 8

/-- Sum of squares of a vector (`np.linalg.norm(v) ** 2`). -/
def sumSq : List ℝ → ℝ
  | [] => 0
  | x :: xs => x * x + sumSq xs

/-- Dot product (`np.dot`), models numpy on equal-length vectors. -/
def dotL : List ℝ → List ℝ → ℝ
  | a :: as, b :: bs => a * b + dotL as bs
  | _, _ => 0

/-- `np.linalg.norm` (L2). -/
noncomputable def normL (v : List ℝ) : ℝ := Real.sqrt (sumSq v)

/-- `_l2_normalize` (lines 140-147), 1-d case: divide by `max(norm, eps)`. -/
noncomputable def l2normalize (v : List ℝ) : List ℝ :=
  v.map (fun a => a / max (normL v) epsNorm)

/-- The pad-or-truncate-to-768 step of `_embed_text_api` (lines 175-179). -/
def padTrunc768 (v : List ℝ) : List ℝ :=
  if v.length < 768 then v ++ List.replicate (768 - v.length) 0 else v.take 768

/-- `_embed_text_api`, API-success tier (lines 151-183): the provider vector is
padded with zeros or truncated to 768 entries and L2-normalized. -/
noncomputable def embedTextApiOk (e : List ℝ) : List ℝ :=
  l2normalize (padTrunc768 e)

/-- `(hash_bytes * (768 // 32 + 1))[:768]` of the hash tier (line 191). -/
def repeatedBytes (d : List ℕ) : List ℕ :=
  ((List.replicate 25 d).flatten).take 768

/-- The hash-tier vector before normalization: bytes scaled into [0, 1]. -/
noncomputable def hashUnit (d : List ℕ) : List ℝ :=
  (repeatedBytes d).map (fun (b : ℕ) => (b : ℝ) / 255)

/-- `_embed_text_api`, hash-fallback tier (lines 184-195), from the digest. -/
noncomputable def embedHashFallback (d : List ℕ) : List ℝ :=
  l2normalize (hashUnit d)

/-- The similarity clamp to [-1, 1] (line 961). -/
noncomputable def simClamp (x : ℝ) : ℝ := max (-1) (min 1 x)

/-- A stored row of the `chunks` table. -/
structure RowM where
  id : String
  user_id : String
  notebook_id : Option String
  content : String
  embedding : Option (List ℝ)
  tokens : Nat
  chunk_index : Nat
  metadata : MetaM

/-- The per-chunk embedding choice of `find_relevent_chunks` (lines 901-944):
use the stored embedding only when it is a non-empty list of width 768 matching
the query width, otherwise re-embed the document text via `_embed_text` (`E`).
The repeated width test mirrors the final safety re-check of line 942. -/
def chooseEmbed (E : String → List ℝ) (qlen : Nat) (doc : String) :
    Option (List ℝ) → List ℝ
  | some l =>
    if l.isEmpty then E doc
    else if l.length ≠ 768 then E doc
    else if l.length ≠ qlen then E doc
    else if l.length ≠ qlen then E doc
    else l
  | none => E doc

/-- `stored_embeddings and idx < len(stored_embeddings) and stored_embeddings[idx]`
(line 906): the entry visible at index `idx`, `none` when absent or falsy. -/
def entryAt (stored : Option (List (Option (List ℝ)))) (idx : Nat) :
    Option (List ℝ) :=
  match stored with
  | none => none
  | some st => if st.isEmpty then none else (st.get? idx).join

/-- The first-pass mismatch sample of `find_relevent_chunks` (lines 872-885):
among the first 10 stored entries, those that are truthy with width ≠ 768. -/
def frcMismatchCount (st : List (Option (List ℝ))) : Nat :=
  ((st.take 10).filter (fun e =>
    match e with
    | some l => !l.isEmpty && l.length != 768
    | none => false)).length

/-- The batch re-embedding pre-pass (lines 894-899): if more than 5 sampled
mismatches and more than 10 documents, re-embed every document. -/
def frcStored (E : String → List ℝ) (docs : List String) :
    Option (List (Option (List ℝ))) → Option (List (Option (List ℝ)))
  | none => none
  | some st =>
    if frcMismatchCount st > 5 ∧ docs.length > 10 then
      some (docs.map (fun d => some (E d)))
    else some st

/-- Pair each candidate triple with its stored-embedding entry, tracking the
loop index of line 901. -/
def attachEntries (stored : Option (List (Option (List ℝ)))) :
    Nat → List RetrievedChunk → List (RetrievedChunk × Option (List ℝ))
  | _, [] => []
  | i, x :: xs => (x, entryAt stored i) :: attachEntries stored (i + 1) xs

/-- The main loop of `find_relevent_chunks` (lines 901-975): skip near-zero-norm
document embeddings, normalize, clamp the cosine similarity, and keep the
candidates meeting the threshold, in scan order. -/
noncomputable def frcGo (E : String → List ℝ) (t : ℝ) (q' : List ℝ) :
    List (RetrievedChunk × Option (List ℝ)) → List RetrievedChunk
  | [] => []
  | (x, entry) :: rest =>
    if Real.sqrt (sumSq (chooseEmbed E q'.length x.1 entry)) > epsSkip then
      if simClamp (dotL q' ((chooseEmbed E q'.length x.1 entry).map
          (fun a => a / Real.sqrt (sumSq (chooseEmbed E q'.length x.1 entry))))) ≥ t then
        x :: frcGo E t q' rest
      else frcGo E t q' rest
    else frcGo E t q' rest

/-- `RAGPipeline.find_relevent_chunks` (lines 846-991). -/
noncomputable def find_relevent_chunks (E : String → List ℝ) (q : List ℝ)
    (docs : List String) (metas : List MetaM) (ids : List String)
    (stored : Option (List (Option (List ℝ)))) (t : ℝ) : List RetrievedChunk :=
  if Real.sqrt (sumSq q) > epsSkip then
    frcGo E t (q.map (fun a => a / Real.sqrt (sumSq q)))
      (attachEntries (frcStored E docs stored) 0 (docs.zip (metas.zip ids)))
  else []

/-- The notebook filter of `_query_with_supabase_client` (lines 791-804);
`lookup` models the external default-notebook query, whose failure leaves the
scan unfiltered by notebook (`except: pass`). -/
def notebookFilterClient (nb : String) (lookup : Except Unit (Option String))
    (r : RowM) : Bool :=
  if nb ≠ "" ∧ nb ≠ "default" then r.notebook_id == some nb
  else if nb = "default" then
    match lookup with
    | .ok (some d) => r.notebook_id == some d
    | .ok none => r.notebook_id == none
    | .error _ => true
  else true

/-- `RAGPipeline._query_with_supabase_client` (lines 782-844): scan the table
filtered by `user_id`, the notebook filter and embedding presence, then rank
client-side with `find_relevent_chunks`. -/
noncomputable def _query_with_supabase_client (E : String → List ℝ)
    (table : List RowM) (q : List ℝ) (nb : String)
    (lookup : Except Unit (Option String)) (top_k : Nat) (uid : String) (t : ℝ) :
    List RetrievedChunk :=
  let rows := table.filter (fun r =>
    r.user_id == uid && notebookFilterClient nb lookup r && r.embedding.isSome)
  find_relevent_chunks E q (rows.map (fun r => r.content))
    (rows.map (fun r => r.metadata)) (rows.map (fun r => r.id))
    (some (rows.map (fun r => r.embedding))) t

/-- pgvector similarity `1 - (embedding <=> query)`, i.e. cosine similarity. -/
noncomputable def cosSim (a b : List ℝ) : ℝ := dotL a b / (normL a * normL b)

/-- The similarity the pgvector SQL computes for a row. -/
noncomputable def simRow (q : List ℝ) (r : RowM) : ℝ :=
  match r.embedding with
  | some e => cosSim e q
  | none => 0

/-- Insertion step for the `ORDER BY` descending-similarity sort. -/
noncomputable def insertBySim (q : List ℝ) (r : RowM) : List RowM → List RowM
  | [] => [r]
  | x :: xs => if simRow q r ≥ simRow q x then r :: x :: xs else x :: insertBySim q r xs

/-- The `ORDER BY c.embedding <=> query` sort (descending similarity). -/
noncomputable def sortBySim (q : List ℝ) : List RowM → List RowM
  | [] => []
  | r :: rs => insertBySim q r (sortBySim q rs)

/-- The notebook filter of `_query_with_pgvector` (lines 717-734): a failing or
empty default-notebook lookup filters on `notebook_id IS NULL`. -/
def notebookFilterPg (nb : String) (lookup : Except Unit (Option String))
    (r : RowM) : Bool :=
  if nb ≠ "" ∧ nb ≠ "default" then r.notebook_id == some nb
  else if nb = "default" then
    match lookup with
    | .ok (some d) => r.notebook_id == some d
    | _ => r.notebook_id == none
  else true

/-- `RAGPipeline._query_with_pgvector` (lines 712-780), modelling the SQL of
lines 739-755: filter by user, embedding presence, notebook and threshold,
order by descending similarity, `LIMIT top_k * 2`, then keep `results[:top_k]`. -/
noncomputable def _query_with_pgvector (table : List RowM) (q : List ℝ)
    (nb : String) (lookup : Except Unit (Option String)) (top_k : Nat)
    (uid : String) (t : ℝ) : List RetrievedChunk :=
  let cands := table.filter (fun r =>
    r.user_id == uid && r.embedding.isSome && notebookFilterPg nb lookup r)
  let passing := cands.filter (fun r => decide (simRow q r ≥ t))
  (((sortBySim q passing).take (top_k * 2)).take top_k).map
    (fun r => (r.content, r.metadata, r.id))

/-- A chunk as handed to `_store_chunks`. -/
structure ChunkS where
  id : String
  text : String
  tokens : Nat
  metadata : MetaM

/-- `dict.get(key, default)` on an association-list metadata map. -/
def metaGet (m : MetaM) (k dflt : String) : String :=
  match m.find? (fun p => p.1 == k) with
  | some p => p.2
  | none => dflt

/-- The rows `_store_chunks` inserts (lines 487-526): the tenant column is
`_get_user_id(user_id)`, the notebook column `_get_notebook_id` of the chunk
metadata, and the embedding the embedder output for the chunk text; the row id
is generated by the database (modelled as `""`). -/
def _store_chunks_rows (E : String → List ℝ) (chunks : List ChunkS)
    (uid : Option String) : List RowM :=
  chunks.enum.map (fun p =>
    { id := "",
      user_id := _get_user_id uid,
      notebook_id := _get_notebook_id (metaGet p.2.metadata ("notebook_id") ("default")),
      content := p.2.text,
      embedding := some (E p.2.text),
      tokens := p.2.tokens,
      chunk_index := p.1,
      metadata := p.2.metadata })

/-- The retrieval dispatch of `RAGPipeline.query` (lines 659-672): resolve the
scope with `_get_user_id`, then use the pgvector path when a direct DB
connection exists (`useDb`), else the Supabase-client path. -/
noncomputable def queryRetrieve (E : String → List ℝ) (table : List RowM)
    (q : List ℝ) (nb : String) (lookup : Except Unit (Option String))
    (top_k : Nat) (uid : Option String) (t : ℝ) (useDb : Bool) :
    List RetrievedChunk :=
  if useDb then
    _query_with_pgvector table q nb lookup top_k (_get_user_id uid) t
  else
    _query_with_supabase_client E table q nb lookup top_k (_get_user_id uid) t

/-- Concrete embedder used by witnesses: two fixed unit vectors. -/
noncomputable def embedFW : String → List ℝ :=
  fun d => if d = "d1" then [3 / 5, 4 / 5] else [4 / 5, 3 / 5]

def metaW : MetaM := []

def qW : List ℝ := [1, 0]

noncomputable def threshW : ℝ := 3 / 10

def lookupErr : Except Unit (Option String) := .error ()

def rowA : RowM := ⟨"i1", "A", none, "d1", some [1, 0], 1, 0, []⟩

def rowB : RowM := ⟨"i2", "B", none, "dB", some [1, 0], 1, 0, []⟩

/-- A two-tenant corpus: one row of scope `"A"`, one of scope `"B"`. -/
def tableAB : List RowM := [rowA, rowB]

def row1 : RowM := ⟨"i1", "A", none, "d1", some [1, 0], 1, 0, []⟩

def row2 : RowM := ⟨"i2", "A", none, "d2", some [1, 0], 1, 0, []⟩

/-- A one-tenant corpus with two rows, both of scope `"A"`. -/
def tableC2 : List RowM := [row1, row2]

/-- A 32-byte digest with one maximal byte, standing in for a SHA-256 digest. -/
def hashW : List ℕ := 255 :: List.replicate 31 0

def affectQ : String := "does smoking affect lungs"

/-- A generative model that always fails, for the synthesis-fallback witness. -/
def genFailW : String → Except String String := fun _ => .error ("boom")

/-- A generative model that always answers, for the empty-retrieval test. -/
def ungroundedGenW : String → Except String String :=
  fun _ => .ok ("UNGROUNDED MODEL ANSWER")

lemma allButLast_cons {α : Type} {p : α → Prop} {a : α} {l : List α}
    (ha : p a) (h : AllButLast p l) : AllButLast p (a :: l) := by
  cases l with
  | nil => trivial
  | cons b t => exact ⟨ha, h⟩

lemma ingestLoop_tokens (tc : List Char → Nat) (maxTok : Nat) :
    ∀ (ss : List (List Char)) (buffer : List Char),
      AllButLast (fun c => maxTok ≤ c.tokens) (ingestLoop tc maxTok ss buffer) := by
  intro ss
  induction ss with
  | nil =>
    intro buffer
    unfold ingestLoop
    split
    · trivial
    · trivial
  | cons s rest ih =>
    intro buffer
    unfold ingestLoop
    split
    · next hcut => exact allButLast_cons hcut (ih [])
    · exact ih _

/-- C6: every chunk produced by `ingest_txt` except the final trailing one has a
recorded token count (measured on the buffer at the moment the cut was made) of
at least `max_tokens_per_chunk`: chunks close only once the threshold is
reached or the input is exhausted. -/
theorem c6_chunk_token_bound (tc : List Char → Nat) (maxTok : Nat)
    (text : List Char) :
    AllButLast (fun c => maxTok ≤ c.tokens) (ingest_txt_chunks tc maxTok text) :=
  ingestLoop_tokens tc maxTok _ _

lemma dropWhile_idem (p : Char → Bool) (l : List Char) :
    (l.dropWhile p).dropWhile p = l.dropWhile p := by
  induction l with
  | nil => rfl
  | cons a t ih =>
    by_cases h : p a
    · simp [List.dropWhile_cons, h, ih]
    · simp [List.dropWhile_cons, h]

lemma dropWhile_prefix_self {p : Char → Bool} {l l' : List Char}
    (h : l.dropWhile p = l) (hpre : l' <+: l) : l'.dropWhile p = l' := by
  cases l' with
  | nil => rfl
  | cons a t =>
    obtain ⟨s, hs⟩ := hpre
    have hpa : p a = false := by
      by_contra hcon
      have hpa' : p a = true := by
        cases hb : p a
        · exact absurd hb hcon
        · rfl
      rw [← hs] at h
      rw [List.cons_append, List.dropWhile_cons, hpa'] at h
      simp only [if_true] at h
      have hlen := congrArg List.length h
      have hle : ((t ++ s).dropWhile p).length ≤ (t ++ s).length :=
        ((List.dropWhile_suffix p).sublist).length_le
      simp only [List.length_cons] at hlen
      omega
    rw [List.dropWhile_cons, hpa]
    simp

lemma dropWhile_trimL (l : List Char) :
    (trimL l).dropWhile isPyWs = trimL l := by
  apply dropWhile_prefix_self (dropWhile_idem isPyWs l)
  show ((l.dropWhile isPyWs).reverse.dropWhile isPyWs).reverse <+: l.dropWhile isPyWs
  have hsuf : (l.dropWhile isPyWs).reverse.dropWhile isPyWs <:+
      (l.dropWhile isPyWs).reverse := List.dropWhile_suffix isPyWs
  have := List.reverse_prefix.mpr hsuf
  simpa using this

lemma trimL_idem (l : List Char) : trimL (trimL l) = trimL l := by
  have hx := dropWhile_trimL l
  show (((trimL l).dropWhile isPyWs).reverse.dropWhile isPyWs).reverse = trimL l
  rw [hx]
  have hrev : (trimL l).reverse = (l.dropWhile isPyWs).reverse.dropWhile isPyWs := by
    simp [trimL]
  rw [hrev, dropWhile_idem]
  simp [trimL]

lemma ingestPdfLoop_trim (tc : List Char → Nat) (maxTok : Nat) :
    ∀ (pages : List (List Char)) (buffer : List Char) (c : ChunkM),
      c ∈ ingestPdfLoop tc maxTok pages buffer → trimL c.text ≠ [] := by
  intro pages
  induction pages with
  | nil =>
    intro buffer c h
    simp [ingestPdfLoop] at h
  | cons p rest ih =>
    intro buffer c h
    unfold ingestPdfLoop at h
    split at h
    · split at h
      · rw [List.mem_append] at h
        cases h with
        | inl h1 =>
          split at h1
          · next hne =>
            rw [List.mem_singleton] at h1
            subst h1
            show trimL (trimL _) ≠ []
            rw [trimL_idem]
            exact hne
          · simp at h1
        | inr h2 => exact ih [] c h2
      · exact ih _ c h
    · exact ih _ c h

/-- C5 (counterexample): chunking the empty string with `ingest_txt` does not
produce zero chunks: with a concrete token counter bounded like cl100k on the
two-character buffer `'. '`, it produces exactly one chunk. -/
theorem c5_empty_input_counterexample :
    ingest_txt_chunks List.length 500 [] ≠ [] ∧
    (ingest_txt_chunks List.length 500 []).length = 1 ∧
    ingest_txt_chunks List.length 500 [] = [⟨['.'], 2⟩] := by
  refine ⟨by decide, by decide, by decide⟩

/-- C5 (amended): `ingest_txt` appends `'. '` to every sentence, so the empty
input yields exactly one chunk whose text is `"."`; the text path of
`ingest_pdf`, by contrast, never produces a chunk from an empty or
whitespace-only buffer. -/
theorem c5_chunk_whitespace (tc : List Char → Nat) (maxTok : Nat)
    (h1 : tc sepDotSpace < maxTok) :
    ingest_txt_chunks tc maxTok [] = [⟨['.'], tc sepDotSpace⟩] ∧
    ∀ (pages : List (List Char)) (c : ChunkM),
      c ∈ ingest_pdf_chunks tc maxTok pages → trimL c.text ≠ [] := by
  constructor
  · show ingestLoop tc maxTok [[]] [] = _
    unfold ingestLoop
    rw [if_neg (by simp; omega : ¬ tc ([] ++ [] ++ sepDotSpace) ≥ maxTok)]
    rfl
  · exact fun pages c h => ingestPdfLoop_trim tc maxTok pages [] c h

/-- Witness for the amended C5 theorem at a concrete token counter. -/
theorem c5_chunk_whitespace_witness :
    ingest_txt_chunks List.length 500 [] = [⟨['.'], 2⟩] ∧
    ∀ c : ChunkM, c ∈ ingest_pdf_chunks List.length 500 [[' ']] →
      trimL c.text ≠ [] := by
  have h := c5_chunk_whitespace List.length 500 (by decide)
  exact ⟨h.1, fun c hc => h.2 [[' ']] c hc⟩

/-- C8 (counterexample): the marker `" affect "` is checked by
`is_multihop_question` (this question is classified multi-hop solely because of
it) but is not a split point of `heuristic_decompose_question`, which returns
the question whole. -/
theorem c8_connective_counterexample :
    is_multihop_question affectQ = true ∧
    heuristic_decompose_question affectQ = [affectQ] := by
  constructor
  · decide
  · decide

/-- C8 (amended): every split marker of `heuristic_decompose_question` is also
a detection marker of `is_multihop_question`, but not conversely: the five
markers `" affect "`, `" relationship "`, `" both "`, `" compare "`,
`" contrast "` are detection-only and never act as split points. -/
theorem c8_connective_sets :
    decomposeSplitters.all (fun m => multihopMarkers.contains m) = true ∧
    ([" affect ", " relationship ", " both ", " compare ", " contrast "] : List String).all
      (fun m => multihopMarkers.contains m && !decomposeSplitters.contains m) = true := by
  constructor
  · decide
  · decide

/-- C9: when the synthesis call to the generative model fails, for any
non-empty sub-answer list `synthesize_answer` returns the first sub-answer
verbatim; the model failure never propagates. -/
theorem c9_synthesis_fallback (gen : String → Except String String)
    (q a : String) (rest : List String) (err : String)
    (h : gen (synthPrompt q (a :: rest)) = .error err) :
    synthesize_answer gen q (a :: rest) = a := by
  unfold synthesize_answer
  rw [h]

/-- Witness for C9 at a concrete failing generator. -/
theorem c9_synthesis_fallback_witness :
    synthesize_answer genFailW ("q") (["a1", "a2"]) = "a1" :=
  c9_synthesis_fallback genFailW ("q") ("a1") (["a2"]) ("boom") rfl

/-- C4 (counterexample): with zero retrieved chunks, `query` does not submit the
question to the generative model: even a generative model that would answer, it
returns the fixed no-material string and an empty chunk list. -/
theorem c4_empty_retrieval_counterexample :
    queryModel ungroundedGenW ("q") (.ok []) = (noMaterialAnswer, []) ∧
    noMaterialAnswer ≠ "UNGROUNDED MODEL ANSWER" := by
  exact ⟨rfl, by decide⟩

/-- C4 (amended): when retrieval yields zero chunks (or the retrieval paths
raise), `query` does not fail: it returns the fixed answer
`"I couldn't find relevant material."` with an empty chunk list, independently
of the generative model, which is never invoked. -/
theorem c4_empty_retrieval_behavior (gen : String → Except String String)
    (q : String) :
    queryModel gen q (.ok []) = (noMaterialAnswer, []) ∧
    queryModel gen q (.error ()) = (noMaterialAnswer, []) :=
  ⟨rfl, rfl⟩

/-- C10: with `user_id = None`, the pipeline silently substitutes the fixed
hard-coded UUID as the tenant scope: `_get_user_id` returns it, stored rows all
carry it, and both retrieval paths behave exactly as if that UUID had been
passed explicitly, so all anonymous callers share that single scope. -/
theorem c10_default_user_scope :
    _get_user_id none = testUserId ∧
    (∀ (E : String → List ℝ) (chunks : List ChunkS),
      _store_chunks_rows E chunks none = _store_chunks_rows E chunks (some testUserId)) ∧
    (∀ (E : String → List ℝ) (chunks : List ChunkS),
      ((_store_chunks_rows E chunks none).all
        (fun r => r.user_id == testUserId)) = true) ∧
    (∀ (E : String → List ℝ) (table : List RowM) (q : List ℝ) (nb : String)
      (lookup : Except Unit (Option String)) (k : Nat) (t : ℝ) (useDb : Bool),
      queryRetrieve E table q nb lookup k none t useDb =
        queryRetrieve E table q nb lookup k (some testUserId) t useDb) := by
  refine ⟨rfl, fun E chunks => rfl, ?_, fun E table q nb lookup k t useDb => rfl⟩
  intro E chunks
  rw [List.all_eq_true]
  intro r hr
  simp only [_store_chunks_rows, List.mem_map] at hr
  obtain ⟨p, _, rfl⟩ := hr
  simp [_get_user_id]

lemma sumSq_nonneg (v : List ℝ) : 0 ≤ sumSq v := by
  induction v with
  | nil => simp [sumSq]
  | cons x xs ih =>
    have hx := mul_self_nonneg x
    simp only [sumSq]
    linarith

lemma sumSq_replicate_zero (n : Nat) : sumSq (List.replicate n (0 : ℝ)) = 0 := by
  induction n with
  | zero => rfl
  | succ k ih => simp [List.replicate_succ, sumSq, ih]

lemma sumSq_map_div (v : List ℝ) (c : ℝ) :
    sumSq (v.map (fun a => a / c)) = sumSq v / (c * c) := by
  induction v with
  | nil => simp [sumSq]
  | cons x xs ih =>
    simp only [List.map_cons, sumSq, ih, div_mul_div_comm, div_add_div_same]

lemma sumSq_l2normalize (v : List ℝ) (h : epsNorm ≤ normL v) :
    sumSq (l2normalize v) = 1 := by
  have heps : (0 : ℝ) < epsNorm := by norm_num [epsNorm]
  have h0 : 0 < normL v := lt_of_lt_of_le heps h
  have hmax : max (normL v) epsNorm = normL v := max_eq_left h
  unfold l2normalize
  rw [hmax, sumSq_map_div]
  have hms : normL v * normL v = sumSq v := Real.mul_self_sqrt (sumSq_nonneg v)
  rw [hms]
  have hpos : 0 < sumSq v := Real.sqrt_pos.mp h0
  exact div_self (ne_of_gt hpos)

lemma length_l2normalize (v : List ℝ) : (l2normalize v).length = v.length := by
  simp [l2normalize]

lemma length_padTrunc768 (v : List ℝ) : (padTrunc768 v).length = 768 := by
  unfold padTrunc768
  split
  · next h =>
    simp only [List.length_append, List.length_replicate]
    omega
  · next h =>
    simp only [List.length_take]
    omega

lemma length_repeatedBytes (d : List ℕ) (h : d.length = 32) :
    (repeatedBytes d).length = 768 := by
  unfold repeatedBytes
  rw [List.length_take, List.length_flatten]
  simp [List.map_replicate, h, List.sum_replicate]

/-- C3: the API tier of `_embed_text_api` pads or truncates the provider vector
to exactly 768 entries before normalization and yields a unit vector (sum of
squares exactly 1 in the real-number model) whenever the padded vector is not
in the degraded near-zero-norm case; likewise for the hash-fallback tier on a
32-byte digest. -/
theorem c3_embedding_norm (e : List ℝ) (d : List ℕ)
    (he : epsNorm ≤ normL (padTrunc768 e))
    (hd : epsNorm ≤ normL (hashUnit d))
    (hlen : d.length = 32) :
    (embedTextApiOk e).length = 768 ∧ sumSq (embedTextApiOk e) = 1 ∧
    (embedHashFallback d).length = 768 ∧ sumSq (embedHashFallback d) = 1 := by
  refine ⟨?_, sumSq_l2normalize _ he, ?_, sumSq_l2normalize _ hd⟩
  · unfold embedTextApiOk
    rw [length_l2normalize, length_padTrunc768]
  · unfold embedHashFallback
    rw [length_l2normalize]
    unfold hashUnit
    rw [List.length_map, length_repeatedBytes d hlen]

/-- Witness for C3 at a concrete one-entry provider vector and digest. -/
theorem c3_embedding_norm_witness :
    sumSq (embedTextApiOk [(1 : ℝ)]) = 1 ∧
    (embedTextApiOk [(1 : ℝ)]).length = 768 ∧
    sumSq (embedHashFallback hashW) = 1 ∧
    (embedHashFallback hashW).length = 768 := by
  have hpt : padTrunc768 [(1 : ℝ)] = 1 :: List.replicate 767 0 := rfl
  have hss : sumSq ((1 : ℝ) :: List.replicate 767 0) = 1 := by
    rw [sumSq, sumSq_replicate_zero]
    norm_num
  have hn1 : normL (padTrunc768 [(1 : ℝ)]) = 1 := by
    rw [hpt]
    unfold normL
    rw [hss, Real.sqrt_one]
  have he : epsNorm ≤ normL (padTrunc768 [(1 : ℝ)]) := by
    rw [hn1]
    norm_num [epsNorm]
  have hrep : repeatedBytes hashW =
      255 :: ((List.replicate 31 0 ++ (List.replicate 24 hashW).flatten).take 767) := by
    show ((hashW :: List.replicate 24 hashW).flatten).take 768 = _
    rw [List.flatten_cons]
    show ((255 :: List.replicate 31 0) ++ _).take 768 = _
    rw [List.cons_append, List.take_succ_cons]
  have hhu : hashUnit hashW = 1 ::
      (((List.replicate 31 0 ++ (List.replicate 24 hashW).flatten).take 767).map
        (fun (b : ℕ) => (b : ℝ) / 255)) := by
    unfold hashUnit
    rw [hrep, List.map_cons]
    norm_num
  have h1le : (1 : ℝ) ≤ sumSq (hashUnit hashW) := by
    rw [hhu]
    have hnn := sumSq_nonneg
      (((List.replicate 31 0 ++ (List.replicate 24 hashW).flatten).take 767).map
        (fun (b : ℕ) => (b : ℝ) / 255))
    rw [sumSq]
    nlinarith
  have hd : epsNorm ≤ normL (hashUnit hashW) := by
    have hcalc : (1 : ℝ) ≤ normL (hashUnit hashW) := by
      unfold normL
      calc (1 : ℝ) = Real.sqrt 1 := Real.sqrt_one.symm
        _ ≤ Real.sqrt (sumSq (hashUnit hashW)) := Real.sqrt_le_sqrt h1le
    have : epsNorm ≤ (1 : ℝ) := by norm_num [epsNorm]
    linarith
  have h := c3_embedding_norm [(1 : ℝ)] hashW he hd
    (by rw [show hashW = 255 :: List.replicate 31 0 from rfl]; simp)
  exact ⟨h.2.1, h.1, h.2.2.2, h.2.2.1⟩

lemma frcGo_mono (E : String → List ℝ) {t1 t2 : ℝ} (h : t1 ≤ t2) (q' : List ℝ) :
    ∀ (items : List (RetrievedChunk × Option (List ℝ))) (x : RetrievedChunk),
      x ∈ frcGo E t2 q' items → x ∈ frcGo E t1 q' items := by
  intro items
  induction items with
  | nil => intro x hx; exact hx
  | cons it rest ih =>
    obtain ⟨y, entry⟩ := it
    intro x hx
    rw [frcGo] at hx ⊢
    by_cases hnd : Real.sqrt (sumSq (chooseEmbed E q'.length y.1 entry)) > epsSkip
    · rw [if_pos hnd] at hx ⊢
      by_cases h2 : simClamp (dotL q' ((chooseEmbed E q'.length y.1 entry).map
          (fun a => a / Real.sqrt (sumSq (chooseEmbed E q'.length y.1 entry))))) ≥ t2
      · rw [if_pos h2] at hx
        have h1 : simClamp (dotL q' ((chooseEmbed E q'.length y.1 entry).map
            (fun a => a / Real.sqrt (sumSq (chooseEmbed E q'.length y.1 entry))))) ≥ t1 :=
          le_trans h h2
        rw [if_pos h1]
        rcases List.mem_cons.mp hx with hxy | hxm
        · exact hxy ▸ List.mem_cons_self _ _
        · exact List.mem_cons_of_mem _ (ih x hxm)
      · rw [if_neg h2] at hx
        by_cases h1 : simClamp (dotL q' ((chooseEmbed E q'.length y.1 entry).map
            (fun a => a / Real.sqrt (sumSq (chooseEmbed E q'.length y.1 entry))))) ≥ t1
        · rw [if_pos h1]
          exact List.mem_cons_of_mem _ (ih x hx)
        · rw [if_neg h1]
          exact ih x hx
    · rw [if_neg hnd] at hx ⊢
      exact ih x hx

/-- C7: threshold monotonicity of `find_relevent_chunks`: for the same query
embedding and candidate set, every chunk returned at threshold `t2` is also
returned at any threshold `t1 ≤ t2`; raising the threshold never grows the
result set. -/
theorem c7_threshold_monotone (E : String → List ℝ) (q : List ℝ)
    (docs : List String) (metas : List MetaM) (ids : List String)
    (stored : Option (List (Option (List ℝ)))) {t1 t2 : ℝ} (h : t1 ≤ t2) :
    ∀ x ∈ find_relevent_chunks E q docs metas ids stored t2,
      x ∈ find_relevent_chunks E q docs metas ids stored t1 := by
  intro x hx
  unfold find_relevent_chunks at hx ⊢
  by_cases hq : Real.sqrt (sumSq q) > epsSkip
  · rw [if_pos hq] at hx ⊢
    exact frcGo_mono E h _ _ x hx
  · rw [if_neg hq] at hx
    exact absurd hx (List.not_mem_nil x)

/-- Witness for C7: the monotonicity theorem applied at thresholds 0 ≤ 1 on a
concrete call, together with an evaluated degenerate call (a zero query
embedding is rejected by the norm guard at every threshold). -/
theorem c7_threshold_monotone_witness :
    find_relevent_chunks embedFW ([] : List ℝ) [] [] [] none 1 = [] ∧
    (("d", metaW, "i") ∈ find_relevent_chunks embedFW ([0, 0] : List ℝ)
        ["d1"] [metaW] ["i1"] none 1 →
      ("d", metaW, "i") ∈ find_relevent_chunks embedFW ([0, 0] : List ℝ)
        ["d1"] [metaW] ["i1"] none 0) := by
  constructor
  · unfold find_relevent_chunks
    rw [if_neg]
    rw [show sumSq ([] : List ℝ) = 0 from rfl, Real.sqrt_zero]
    norm_num [epsSkip]
  · exact fun hmem =>
      c7_threshold_monotone embedFW [0, 0] ["d1"] [metaW] ["i1"] none
        (by norm_num) ("d", metaW, "i") hmem

lemma frcGo_sublist (E : String → List ℝ) (t : ℝ) (q' : List ℝ) :
    ∀ items : List (RetrievedChunk × Option (List ℝ)),
      (frcGo E t q' items).Sublist (items.map (fun it => it.1)) := by
  intro items
  induction items with
  | nil => exact List.Sublist.refl _
  | cons it rest ih =>
    obtain ⟨y, entry⟩ := it
    rw [frcGo, List.map_cons]
    by_cases hnd : Real.sqrt (sumSq (chooseEmbed E q'.length y.1 entry)) > epsSkip
    · rw [if_pos hnd]
      by_cases hs : simClamp (dotL q' ((chooseEmbed E q'.length y.1 entry).map
          (fun a => a / Real.sqrt (sumSq (chooseEmbed E q'.length y.1 entry))))) ≥ t
      · rw [if_pos hs]
        exact ih.cons₂ y
      · rw [if_neg hs]
        exact ih.cons y
    · rw [if_neg hnd]
      exact ih.cons y

lemma attachEntries_map_fst (stored : Option (List (Option (List ℝ)))) :
    ∀ (l : List RetrievedChunk) (i : Nat),
      (attachEntries stored i l).map (fun it => it.1) = l := by
  intro l
  induction l with
  | nil => intro i; rfl
  | cons x xs ih => intro i; simp [attachEntries, ih]

lemma find_relevent_chunks_sublist (E : String → List ℝ) (q : List ℝ)
    (docs : List String) (metas : List MetaM) (ids : List String)
    (stored : Option (List (Option (List ℝ)))) (t : ℝ) :
    (find_relevent_chunks E q docs metas ids stored t).Sublist
      (docs.zip (metas.zip ids)) := by
  unfold find_relevent_chunks
  split
  · have h1 := frcGo_sublist E t (q.map (fun a => a / Real.sqrt (sumSq q)))
      (attachEntries (frcStored E docs stored) 0 (docs.zip (metas.zip ids)))
    rwa [attachEntries_map_fst] at h1
  · exact List.nil_sublist _

/-- C2 (amended): on the client-side path, the returned chunks are a sublist of
the candidate `(text, metadata, id)` triples — scan order is preserved, there
is no similarity sort — and `top_k` is ignored entirely: the result of
`_query_with_supabase_client` is independent of `top_k`, so its length is not
bounded by it (only the threshold filter limits it). -/
theorem c2_scan_order_no_topk :
    (∀ (E : String → List ℝ) (table : List RowM) (q : List ℝ) (nb : String)
      (lookup : Except Unit (Option String)) (uid : String) (t : ℝ) (k1 k2 : Nat),
      _query_with_supabase_client E table q nb lookup k1 uid t =
        _query_with_supabase_client E table q nb lookup k2 uid t) ∧
    (∀ (E : String → List ℝ) (q : List ℝ) (docs : List String)
      (metas : List MetaM) (ids : List String)
      (stored : Option (List (Option (List ℝ)))) (t : ℝ),
      (find_relevent_chunks E q docs metas ids stored t).Sublist
        (docs.zip (metas.zip ids))) :=
  ⟨fun _ _ _ _ _ _ _ _ _ => rfl,
   fun E q docs metas ids stored t => find_relevent_chunks_sublist E q docs metas ids stored t⟩

set_option maxHeartbeats 1000000 in
lemma frc_eval_concrete :
    _query_with_supabase_client embedFW tableC2 qW ("") lookupErr 1 ("A") threshW =
      [("d1", metaW, "i1"), ("d2", metaW, "i2")] := by
  show find_relevent_chunks embedFW qW ["d1", "d2"] [metaW, metaW] ["i1", "i2"]
      (some [some [1, 0], some [1, 0]]) threshW = _
  have hsum : sumSq qW = 1 := by norm_num [qW, sumSq]
  unfold find_relevent_chunks
  rw [if_pos (by rw [hsum, Real.sqrt_one]; norm_num [epsSkip] :
    Real.sqrt (sumSq qW) > epsSkip)]
  have hq' : qW.map (fun a => a / Real.sqrt (sumSq qW)) = qW := by
    rw [hsum, Real.sqrt_one]
    simp [qW]
  rw [hq']
  show frcGo embedFW threshW qW
      [(("d1", metaW, "i1"), some [1, 0]), (("d2", metaW, "i2"), some [1, 0])] = _
  have hce1 : chooseEmbed embedFW qW.length ("d1", metaW, "i1").1 (some [1, 0]) =
      [3 / 5, 4 / 5] := rfl
  have hce2 : chooseEmbed embedFW qW.length ("d2", metaW, "i2").1 (some [1, 0]) =
      [4 / 5, 3 / 5] := rfl
  have hs1 : sumSq [(3 : ℝ) / 5, 4 / 5] = 1 := by norm_num [sumSq]
  have hs2 : sumSq [(4 : ℝ) / 5, 3 / 5] = 1 := by norm_num [sumSq]
  have hdiv1 : ∀ v : List ℝ, v.map (fun a => a / 1) = v := fun v => by simp
  have hgt : (1 : ℝ) > epsSkip := by norm_num [epsSkip]
  rw [frcGo, hce1, hs1, Real.sqrt_one, if_pos hgt, hdiv1]
  have hd1 : simClamp (dotL qW [(3 : ℝ) / 5, 4 / 5]) = 3 / 5 := by
    rw [show dotL qW [(3 : ℝ) / 5, 4 / 5] = 3 / 5 by norm_num [dotL, qW]]
    unfold simClamp
    rw [min_eq_right (by norm_num), max_eq_right (by norm_num)]
  rw [hd1, if_pos (by norm_num [threshW] : (3 : ℝ) / 5 ≥ threshW)]
  rw [frcGo, hce2, hs2, Real.sqrt_one, if_pos hgt, hdiv1]
  have hd2 : simClamp (dotL qW [(4 : ℝ) / 5, 3 / 5]) = 4 / 5 := by
    rw [show dotL qW [(4 : ℝ) / 5, 3 / 5] = 4 / 5 by norm_num [dotL, qW]]
    unfold simClamp
    rw [min_eq_right (by norm_num), max_eq_right (by norm_num)]
  rw [hd2, if_pos (by norm_num [threshW] : (4 : ℝ) / 5 ≥ threshW)]
  rfl

/-- C2 (counterexample): a concrete two-chunk corpus on which the client-side
retrieval with `top_k = 1` returns both chunks (length 2 > top_k), in scan
order with the strictly less similar chunk first — neither the length bound
nor the descending-similarity ordering of the claim holds. -/
theorem c2_order_topk_counterexample :
    _query_with_supabase_client embedFW tableC2 qW ("") lookupErr 1 ("A") threshW =
      [("d1", metaW, "i1"), ("d2", metaW, "i2")] ∧
    (_query_with_supabase_client embedFW tableC2 qW ("") lookupErr 1 ("A") threshW).length = 2 ∧
    simClamp (dotL qW (embedFW ("d1"))) < simClamp (dotL qW (embedFW ("d2"))) := by
  refine ⟨frc_eval_concrete, by rw [frc_eval_concrete]; rfl, ?_⟩
  have he1 : embedFW ("d1") = [3 / 5, 4 / 5] := rfl
  have he2 : embedFW ("d2") = [4 / 5, 3 / 5] := rfl
  rw [he1, he2]
  rw [show dotL qW [(3 : ℝ) / 5, 4 / 5] = 3 / 5 by norm_num [dotL, qW]]
  rw [show dotL qW [(4 : ℝ) / 5, 3 / 5] = 4 / 5 by norm_num [dotL, qW]]
  unfold simClamp
  rw [min_eq_right (by norm_num : (3 : ℝ) / 5 ≤ 1),
    max_eq_right (by norm_num : (-1 : ℝ) ≤ 3 / 5),
    min_eq_right (by norm_num : (4 : ℝ) / 5 ≤ 1),
    max_eq_right (by norm_num : (-1 : ℝ) ≤ 4 / 5)]
  norm_num

lemma zip_map_triple (l : List RowM) :
    ((l.map (fun r => r.content)).zip ((l.map (fun r => r.metadata)).zip
      (l.map (fun r => r.id)))) = l.map (fun r => (r.content, r.metadata, r.id)) := by
  induction l with
  | nil => rfl
  | cons r rs ih => simp [ih]

lemma mem_insertBySim (q : List ℝ) (r : RowM) :
    ∀ (l : List RowM) (x : RowM), x ∈ insertBySim q r l → x = r ∨ x ∈ l := by
  intro l
  induction l with
  | nil =>
    intro x hx
    rw [insertBySim] at hx
    exact Or.inl (List.mem_singleton.mp hx)
  | cons a as ih =>
    intro x hx
    rw [insertBySim] at hx
    split at hx
    · rcases List.mem_cons.mp hx with h | h
      · exact Or.inl h
      · exact Or.inr h
    · rcases List.mem_cons.mp hx with h | h
      · exact Or.inr (h ▸ List.mem_cons_self _ _)
      · rcases ih x h with h' | h'
        · exact Or.inl h'
        · exact Or.inr (List.mem_cons_of_mem _ h')

lemma mem_sortBySim (q : List ℝ) :
    ∀ (l : List RowM) (x : RowM), x ∈ sortBySim q l → x ∈ l := by
  intro l
  induction l with
  | nil => intro x hx; exact hx
  | cons r rs ih =>
    intro x hx
    rw [sortBySim] at hx
    rcases mem_insertBySim q r _ x hx with h | h
    · exact h ▸ List.mem_cons_self _ _
    · exact List.mem_cons_of_mem _ (ih x h)

/-- C1: scope isolation.  On both retrieval paths, every returned
`(content, metadata, id)` triple originates from a table row whose stored
`user_id` equals the querying scope; consequently, for a corpus also holding a
row of a different scope (under distinct row ids), that row's id is never among
the results: a query scoped to tenant A never returns a chunk stored under
tenant B. -/
theorem c1_scope_isolation (E : String → List ℝ) (table : List RowM)
    (q : List ℝ) (nb : String) (lookup : Except Unit (Option String)) (k : Nat)
    (uidA : String) (t : ℝ) (rB : RowM) (hB : rB ∈ table)
    (hBneq : rB.user_id ≠ uidA) (hids : (table.map RowM.id).Nodup) :
    (∀ out ∈ _query_with_supabase_client E table q nb lookup k uidA t,
      (∃ r ∈ table, r.user_id = uidA ∧ out = (r.content, r.metadata, r.id)) ∧
        out.2.2 ≠ rB.id) ∧
    (∀ out ∈ _query_with_pgvector table q nb lookup k uidA t,
      (∃ r ∈ table, r.user_id = uidA ∧ out = (r.content, r.metadata, r.id)) ∧
        out.2.2 ≠ rB.id) := by
  have key : ∀ out : RetrievedChunk,
      (∃ r ∈ table, r.user_id = uidA ∧ out = (r.content, r.metadata, r.id)) →
      out.2.2 ≠ rB.id := by
    rintro out ⟨r, hr, huid, rfl⟩ heq
    have hrB : r = rB := List.inj_on_of_nodup_map hids hr hB heq
    rw [hrB] at huid
    exact hBneq huid
  constructor
  · intro out hout
    have hex : ∃ r ∈ table, r.user_id = uidA ∧ out = (r.content, r.metadata, r.id) := by
      simp only [_query_with_supabase_client] at hout
      have hsub := (find_relevent_chunks_sublist E q _ _ _ _ t).subset hout
      rw [zip_map_triple] at hsub
      obtain ⟨r, hrf, heq⟩ := List.mem_map.mp hsub
      have hmf := List.mem_filter.mp hrf
      have hcond := hmf.2
      simp only [Bool.and_eq_true, beq_iff_eq] at hcond
      exact ⟨r, hmf.1, hcond.1.1, heq.symm⟩
    exact ⟨hex, key out hex⟩
  · intro out hout
    have hex : ∃ r ∈ table, r.user_id = uidA ∧ out = (r.content, r.metadata, r.id) := by
      simp only [_query_with_pgvector] at hout
      obtain ⟨r, hrmem, heq⟩ := List.mem_map.mp hout
      have h2 : r ∈ sortBySim q (List.filter _ (List.filter _ table)) :=
        (List.take_sublist _ _).subset ((List.take_sublist _ _).subset hrmem)
      have h3 := mem_sortBySim q _ r h2
      have h4 := List.mem_filter.mp h3
      have h5 := List.mem_filter.mp h4.1
      have hcond := h5.2
      simp only [Bool.and_eq_true, beq_iff_eq] at hcond
      exact ⟨r, h5.1, hcond.1.1, heq.symm⟩
    exact ⟨hex, key out hex⟩

/-- Witness for C1: on the two-tenant corpus `tableAB`, a query scoped to
`"A"` never returns the `"B"`-scoped row's chunk, on either path. -/
theorem c1_scope_isolation_witness :
    (("dB", metaW, "i2") ∉
      _query_with_supabase_client embedFW tableAB qW ("") lookupErr 3 ("A") threshW) ∧
    (("dB", metaW, "i2") ∉
      _query_with_pgvector tableAB qW ("") lookupErr 3 ("A") threshW) := by
  have h := c1_scope_isolation embedFW tableAB qW ("") lookupErr 3 ("A") threshW
    rowB (by simp [tableAB]) (by decide) (by decide)
  constructor
  · intro hmem
    exact (h.1 _ hmem).2 rfl
  · intro hmem
    exact (h.2 _ hmem).2 rfl
